import Mathlib

/-!
Verification development for `src/pacman/pac.py` (Cnchi's pyalpm wrapper).

The Python module is shallowly embedded below.  External pyalpm objects
(transactions, sync databases, the callback queue) are modelled by their
observable behaviour: a transaction is a pair of outcomes for its
`prepare` and `commit` calls, a sync database is its name together with
whether its forced `update` raises, the callback queue is whether it is
attached and whether `put_nowait` would raise `queue.Full`.  Python
exceptions are modelled explicitly: a pyalpm engine error and any other
exception are separate outcome constructors, and functions return an
`Option`-like result recording whether a value is returned or an
exception propagates.  Byte counts are integers as in the source;
Python float arithmetic in the download callback is modelled over ℝ.
-/

/-- Outcome of one external engine call (`prepare`, `commit`, `db.update`):
it either returns normally, raises `pyalpm.error`, or raises some other
exception. -/
inductive StepOutcome
  | ok
  | alpmError (msg : String)
  | otherExc (msg : String)
deriving DecidableEq, Repr

/-- Behaviour of one pyalpm transaction object, as observed by
`finalize_transaction`: what its `prepare` and `commit` calls do.
(`commit` behaviour is only consulted when `prepare` returns normally,
mirroring the sequencing of the `try` block.) -/
structure TransBehavior where
  prepareStep : StepOutcome
  commitStep : StepOutcome
deriving DecidableEq, Repr

/-- Result of running `finalize_transaction` on a transaction:
`returned = some b` means the Python function returned `b`;
`returned = none` would mean an exception propagated to the caller.
`calls` records, in order, the engine calls made on the transaction
(the strings are the method names `prepare`, `commit`, `release`), and
`errorLog` the messages passed to `logging.error`. -/
structure FinalizeResult where
  returned : Option Bool
  calls : List String
  errorLog : List String
deriving DecidableEq, Repr

/-- Runs one step; `none` means no exception, `some (isAlpm, msg)` a raised
exception with its class. -/
def runStep : StepOutcome → Option (Bool × String)
  | .ok => none
  | .alpmError m => some (true, m)
  | .otherExc m => some (false, m)

/-- Embedding of `Pac.finalize_transaction` (pac.py lines 112-124):

    all_ok = True
    try:
        transaction.prepare()
        transaction.commit()
    except pyalpm.error as err:
        msg = ... ; logging.error(msg)
        all_ok = False
    finally:
        transaction.release()
        return all_ok

The `try` body runs `prepare`, then `commit` only if `prepare` did not
raise.  The `except` clause catches only `pyalpm.error`; any other
exception stays in flight.  The `finally` block always calls `release`,
and its `return all_ok` statement discards any in-flight exception, so
the function always returns. -/
def finalize_transaction (t : TransBehavior) : FinalizeResult :=
  let tryRun : List String × Option (Bool × String) :=
    match runStep t.prepareStep with
    | some e => (["prepare"], some e)
    | none =>
      match runStep t.commitStep with
      | some e => (["prepare", "commit"], some e)
      | none => (["prepare", "commit"], none)
  let afterExcept : Bool × List String :=
    match tryRun.2 with
    | none => (true, [])
    | some (true, m) => (false, ["Cant finalize alpm transaction: " ++ m])
    | some (false, _) => (true, [])
  { returned := some afterExcept.1
    calls := tryRun.1 ++ ["release"]
    errorLog := afterExcept.2 }

/-- pyalpm constant `PKG_REASON_EXPLICIT`. -/
def PKG_REASON_EXPLICIT : ℕ := 0

/-- pyalpm constant `PKG_REASON_DEPEND`. -/
def PKG_REASON_DEPEND : ℕ := 1

/-- The values `init_transaction` reads out of its `options` dict: each
field is `options.get(key, default)` for the corresponding key, so an
absent key is represented by the Python default already substituted
(`0` for `recursive`, `none` for `mode`, `false` for the booleans). -/
structure TransOptions where
  cascade : Bool
  nodeps : Bool
  force : Bool
  dbonly : Bool
  downloadonly : Bool
  needed : Bool
  nosave : Bool
  recursive : ℕ
  unneeded : Bool
  mode : Option ℕ
deriving DecidableEq, Repr

/-- The flag set handed to `handle.init_transaction`. -/
structure TransFlags where
  cascade : Bool
  nodeps : Bool
  force : Bool
  dbonly : Bool
  downloadonly : Bool
  needed : Bool
  nosave : Bool
  recurse : Bool
  recurseall : Bool
  unneeded : Bool
  alldeps : Bool
  allexplicit : Bool
deriving DecidableEq, Repr

/-- Embedding of the flag computation in `Pac.init_transaction`
(pac.py lines 126-141): every flag is passed through unchanged except
`recurse = (options.get('recursive', 0) > 0)`,
`recurseall = (options.get('recursive', 0) > 1)`,
`alldeps = (options.get('mode', None) == pyalpm.PKG_REASON_DEPEND)` and
`allexplicit = (options.get('mode', None) == pyalpm.PKG_REASON_EXPLICIT)`. -/
def init_transaction (o : TransOptions) : TransFlags :=
  { cascade := o.cascade
    nodeps := o.nodeps
    force := o.force
    dbonly := o.dbonly
    downloadonly := o.downloadonly
    needed := o.needed
    nosave := o.nosave
    recurse := decide (0 < o.recursive)
    recurseall := decide (1 < o.recursive)
    unneeded := o.unneeded
    alldeps := decide (o.mode = some PKG_REASON_DEPEND)
    allexplicit := decide (o.mode = some PKG_REASON_EXPLICIT) }

/-- C2: `finalize_transaction` runs `prepare` then `commit`; a pyalpm
error in either phase is logged and turns the result into `False`
instead of an exception; and on every exit path (success, prepare
failure, commit failure) `release` is called exactly once. -/
theorem finalize_transaction_two_phase (t : TransBehavior) :
    (finalize_transaction t).calls.count "release" = 1
    ∧ (t.prepareStep = .ok →
        (finalize_transaction t).calls = ["prepare", "commit", "release"])
    ∧ (t.prepareStep ≠ .ok →
        (finalize_transaction t).calls = ["prepare", "release"])
    ∧ (t.prepareStep = .ok → t.commitStep = .ok →
        (finalize_transaction t).returned = some true)
    ∧ (∀ m, t.prepareStep = .alpmError m →
        (finalize_transaction t).returned = some false
        ∧ (finalize_transaction t).errorLog ≠ [])
    ∧ (∀ m, t.prepareStep = .ok → t.commitStep = .alpmError m →
        (finalize_transaction t).returned = some false
        ∧ (finalize_transaction t).errorLog ≠ []) := by
  obtain ⟨p, c⟩ := t
  cases p <;> cases c <;>
    simp [finalize_transaction, runStep, List.count, List.countP] <;> decide

/-- Witness for `finalize_transaction_two_phase`: a transaction whose
`commit` raises a pyalpm error returns `False`, logs, and is released
exactly once after `prepare` and `commit` ran. -/
theorem finalize_transaction_two_phase_witness :
    (finalize_transaction ⟨.ok, .alpmError "boom"⟩).calls.count "release" = 1
    ∧ (finalize_transaction ⟨.ok, .alpmError "boom"⟩).calls
        = ["prepare", "commit", "release"]
    ∧ (finalize_transaction ⟨.ok, .alpmError "boom"⟩).returned = some false := by
  refine ⟨(finalize_transaction_two_phase ⟨.ok, .alpmError "boom"⟩).1,
    (finalize_transaction_two_phase ⟨.ok, .alpmError "boom"⟩).2.1 rfl,
    ((finalize_transaction_two_phase ⟨.ok, .alpmError "boom"⟩).2.2.2.2.2 "boom"
      rfl rfl).1⟩

/-- C10: `finalize_transaction` never propagates any exception (the
`return` inside `finally` swallows every in-flight exception); for a
non-pyalpm exception raised by `prepare` or by `commit`, the transaction
is still released and the function returns `True`. -/
theorem finalize_transaction_swallows_exceptions (t : TransBehavior) :
    (finalize_transaction t).returned.isSome = true
    ∧ (∀ m, t.prepareStep = .otherExc m →
        finalize_transaction t
          = ⟨some true, ["prepare", "release"], []⟩)
    ∧ (∀ m, t.prepareStep = .ok → t.commitStep = .otherExc m →
        finalize_transaction t
          = ⟨some true, ["prepare", "commit", "release"], []⟩) := by
  obtain ⟨p, c⟩ := t
  cases p <;> cases c <;> simp [finalize_transaction, runStep]

/-- Witness for `finalize_transaction_swallows_exceptions`: a `TypeError`
style failure during `commit` is swallowed, the transaction is released,
and the caller sees `True`. -/
theorem finalize_transaction_swallows_exceptions_witness :
    finalize_transaction ⟨.ok, .otherExc "TypeError"⟩
      = ⟨some true, ["prepare", "commit", "release"], []⟩ :=
  (finalize_transaction_swallows_exceptions
    ⟨.ok, .otherExc "TypeError"⟩).2.2 "TypeError" rfl rfl

/-- C9: in the flag set built by `init_transaction`, `recurseall` implies
`recurse` (both derive from the single `recursive` counter), and
`alldeps` and `allexplicit` are never both set (both derive from the
single `mode` selector and the two pyalpm reason constants differ). -/
theorem init_transaction_flag_coupling (o : TransOptions) :
    ((init_transaction o).recurseall = true → (init_transaction o).recurse = true)
    ∧ ¬((init_transaction o).alldeps = true
        ∧ (init_transaction o).allexplicit = true) := by
  constructor
  · intro h
    simp only [init_transaction, decide_eq_true_eq] at h ⊢
    omega
  · rintro ⟨h1, h2⟩
    simp only [init_transaction, decide_eq_true_eq] at h1 h2
    rw [h1] at h2
    simp [PKG_REASON_DEPEND, PKG_REASON_EXPLICIT] at h2

/-- Witness for `init_transaction_flag_coupling`: with `recursive = 2`
(recurse-all requested) the `recurse` flag is set as well. -/
theorem init_transaction_flag_coupling_witness :
    (init_transaction ⟨false, false, false, false, false, false, false, 2,
        false, some PKG_REASON_DEPEND⟩).recurse = true :=
  (init_transaction_flag_coupling
    ⟨false, false, false, false, false, false, false, 2,
      false, some PKG_REASON_DEPEND⟩).1 (by decide)

/-- A sync database as observed by the resolution phase of `do_install`:
its name, the names of the packages it offers (`db.get_pkg` is an exact
name lookup), and its groups (`db.read_grp` returns the pair of group
name and member package list). Package and group-member objects are
represented by their `.name` string, the only attribute the source
reads. -/
structure Db where
  name : String
  pkgs : List String
  groups : List (String × List String)
deriving DecidableEq, Repr

/-- `db.get_pkg(pkgname)`: exact-name lookup, `None` when absent. -/
def get_pkg (db : Db) (pkgname : String) : Option String :=
  if pkgname ∈ db.pkgs then some pkgname else none

/-- `repo.read_grp(group)`: the `(name, pkgs)` pair of the group, or
`None`. -/
def read_grp (db : Db) (group : String) : Option (String × List String) :=
  db.groups.find? (fun g => g.1 = group)

/-- One assignment into the Python dict built by
`dict((db.name, db) for db in ...)`: re-assignment keeps the original
position, a new key is appended. -/
def dictInsertDb : List (String × Db) → String → Db → List (String × Db)
  | [], k, v => [(k, v)]
  | p :: rest, k, v =>
    if p.1 = k then (k, v) :: rest else p :: dictInsertDb rest k v

/-- `repos = dict((db.name, db) for db in self.handle.get_syncdbs())`
(pac.py line 176). -/
def buildRepos (dbs : List Db) : List (String × Db) :=
  dbs.foldl (fun acc db => dictInsertDb acc db.name db) []

/-- `repos.values()` in the order `find_sync_package` iterates them. -/
def reposValues (dbs : List Db) : List Db :=
  (buildRepos dbs).map Prod.snd

/-- Embedding of `Pac.find_sync_package` (pac.py lines 223-229): linear
scan over the databases, first hit wins.  The source returns
`(True, package)` on success and `(False, "Package ... was not found.")`
on failure; the second component of the failure pair is an error string,
modelled here as `none`. -/
def find_sync_package (pkgname : String) : List Db → Bool × Option String
  | [] => (false, none)
  | db :: rest =>
    match get_pkg db pkgname with
    | some pkg => (true, some pkg)
    | none => find_sync_package pkgname rest

/-- Embedding of `Pac.get_group_pkgs` (pac.py lines 231-240): scan the
sync databases in order, return the member list of the first group
match, `None` when no database exposes the group. -/
def get_group_pkgs (dbs : List Db) (group : String) : Option (List String) :=
  match dbs with
  | [] => none
  | repo :: rest =>
    match read_grp repo group with
    | none => get_group_pkgs rest group
    | some grp => some grp.2

/-- One iteration of the resolution loop in `do_install` (pac.py lines
179-199): try the name as a sync package (dropped silently when its name
is in `conflicts`); otherwise try it as a group and keep the members not
in `conflicts`; otherwise log a non-fatal diagnostic and contribute
nothing. -/
def resolveOne (repos dbs : List Db) (conflicts : List String)
    (name : String) : List String :=
  let fr := find_sync_package name repos
  if fr.1 = true then
    match fr.2 with
    | some pkg => if pkg ∉ conflicts then [pkg] else []
    | none => []
  else
    match get_group_pkgs dbs name with
    | some group_pkgs => group_pkgs.filter (fun gp => decide (gp ∉ conflicts))
    | none => []

/-- The target list computed by `do_install` (pac.py lines 173-202):
`pkgs = list(set(pkgs))`, the resolution loop, then
`targets = list(set(targets))`.  Python's `set` deduplicates with
unspecified iteration order; `List.dedup` is the deterministic stand-in
(the claims about this list are order-insensitive). -/
def install_targets (dbs : List Db) (pkgs conflicts : List String) :
    List String :=
  (pkgs.dedup.flatMap (resolveOne (reposValues dbs) dbs conflicts)).dedup

/-- How a call of `do_install` ends: raising `pyalpm.error` for a missing
handle, returning the empty list for empty input, returning `False`
(no targets, or `init_transaction` returned `None`), or reaching
`finalize_transaction` with the resolved target list. -/
inductive InstallResult
  | raisesAlpm
  | emptyList
  | returnsFalse
  | finalized (targets : List String)
deriving DecidableEq, Repr

/-- Result of `do_install` together with whether `init_transaction` was
ever invoked. -/
structure InstallOutcome where
  result : InstallResult
  initTransCalled : Bool
deriving DecidableEq, Repr

/-- Embedding of the control flow of `Pac.do_install` (pac.py lines
162-221): handle check, empty-input early return of `[]`, resolution
into `targets`, `return False` when no targets remain, transaction
creation (`transOk` says whether `handle.init_transaction` succeeds —
on failure `init_transaction` returns `None` and `do_install` returns
`False`), then finalization with the resolved targets. -/
def do_install (handlePresent : Bool) (dbs : List Db) (transOk : Bool)
    (pkgs conflicts : List String) : InstallOutcome :=
  if handlePresent = false then ⟨.raisesAlpm, false⟩
  else if pkgs.length = 0 then ⟨.emptyList, false⟩
  else
    let targets := install_targets dbs pkgs conflicts
    if targets.length = 0 then ⟨.returnsFalse, false⟩
    else if transOk = false then ⟨.returnsFalse, true⟩
    else ⟨.finalized targets, true⟩

/-- When `find_sync_package` reports success, the found package carries
exactly the requested name (`get_pkg` is an exact-name lookup). -/
theorem find_sync_package_found (n : String) (dbs : List Db)
    (h : (find_sync_package n dbs).1 = true) :
    find_sync_package n dbs = (true, some n) := by
  induction dbs with
  | nil => simp [find_sync_package] at h
  | cons db rest ih =>
    by_cases hdb : n ∈ db.pkgs
    · simp [find_sync_package, get_pkg, hdb]
    · simp only [find_sync_package, get_pkg, if_neg hdb] at h ⊢
      exact ih h

/-- C4: installing `["A", "A", "B"]` with `conflicts = ["B"]`, where both
names resolve as sync packages, yields exactly the target set `{"A"}`:
the duplicate request collapses, the conflicting resolved name is
silently dropped, and the final list is deduplicated. -/
theorem do_install_dedup_conflict_filter (dbs : List Db)
    (hA : (find_sync_package "A" (reposValues dbs)).1 = true)
    (hB : (find_sync_package "B" (reposValues dbs)).1 = true) :
    install_targets dbs ["A", "A", "B"] ["B"] = ["A"] := by
  have hA' := find_sync_package_found "A" (reposValues dbs) hA
  have hB' := find_sync_package_found "B" (reposValues dbs) hB
  have hd : (["A", "A", "B"] : List String).dedup = ["A", "B"] := by decide
  have h1 : resolveOne (reposValues dbs) dbs ["B"] "A" = ["A"] := by
    simp [resolveOne, hA']
  have h2 : resolveOne (reposValues dbs) dbs ["B"] "B" = [] := by
    simp [resolveOne, hB']
  unfold install_targets
  rw [hd]
  rw [show (["A", "B"] : List String).flatMap
      (resolveOne (reposValues dbs) dbs ["B"])
    = resolveOne (reposValues dbs) dbs ["B"] "A"
      ++ (resolveOne (reposValues dbs) dbs ["B"] "B" ++ []) from rfl]
  rw [h1, h2]
  decide

/-- Witness for `do_install_dedup_conflict_filter`: one database offering
packages `A` and `B`. -/
theorem do_install_dedup_conflict_filter_witness :
    install_targets [⟨"core", ["A", "B"], []⟩] ["A", "A", "B"] ["B"]
      = ["A"] :=
  do_install_dedup_conflict_filter [⟨"core", ["A", "B"], []⟩]
    (by decide) (by decide)

/-- C5: `do_install` distinguishes the two empty cases: an empty `names`
input returns the empty list without ever creating a transaction
(a no-op, not an error), whereas a non-empty input whose resolution and
conflict filtering leave no targets returns `False` — the operation
fails — still without creating (hence without committing) any
transaction. -/
theorem do_install_empty_cases (dbs : List Db) (transOk : Bool)
    (pkgs conflicts : List String) :
    do_install true dbs transOk [] conflicts
      = ⟨InstallResult.emptyList, false⟩
    ∧ (pkgs ≠ [] → install_targets dbs pkgs conflicts = [] →
        do_install true dbs transOk pkgs conflicts
          = ⟨InstallResult.returnsFalse, false⟩) := by
  refine ⟨rfl, fun hne hempty => ?_⟩
  simp [do_install, hempty, hne]

/-- Witness for `do_install_empty_cases`: empty input is a no-op; the
unresolvable input `["zzz"]` against no databases fails with no
transaction. -/
theorem do_install_empty_cases_witness :
    do_install true [] true [] [] = ⟨InstallResult.emptyList, false⟩
    ∧ do_install true [] true ["zzz"] []
        = ⟨InstallResult.returnsFalse, false⟩ :=
  ⟨(do_install_empty_cases [] true [] []).1,
   (do_install_empty_cases [] true ["zzz"] []).2 (by decide) (by decide)⟩

/-- A Python value carried as the `event_text` of an event: in the source
these are either strings (`info`, `error`, `action` texts) or numbers
(`percent` fractions); the download-callback fractions are rational in
the known-total case, so `ℚ` suffices for the emitter model. -/
inductive EventValue
  | str (s : String)
  | num (q : ℚ)
deriving DecidableEq, Repr

/-- State read and written by `Pac.queue_event`: the `last_event` dict
(kind to last text), and the behaviour of the external
`callback_queue` — whether one is attached (`self.callback_queue is not
None`) and whether `put_nowait` would raise `queue.Full`. -/
structure EmitterState where
  last_event : List (String × EventValue)
  queueAttached : Bool
  queueFull : Bool
deriving DecidableEq, Repr

/-- Observable actions `queue_event` performs on the outside world:
a successful `callback_queue.put_nowait`, a `callback_queue.join`
(blocking until the consumer has drained the queue), and a `sys.exit`. -/
inductive QEAction
  | put (kind : String) (text : EventValue)
  | joinQueue
  | exitProcess (code : ℕ)
deriving DecidableEq, Repr

/-- Dict lookup `last_event[kind]` (with `kind in last_event` as
`isSome`). -/
def lookupEvent (m : List (String × EventValue)) (k : String) :
    Option EventValue :=
  (m.find? (fun p => p.1 = k)).map Prod.snd

/-- Dict assignment `last_event[kind] = text`: replaces the value in
place when the key is present, appends otherwise (Python dicts keep the
original insertion position on re-assignment). -/
def storeEvent : List (String × EventValue) → String → EventValue →
    List (String × EventValue)
  | [], k, v => [(k, v)]
  | p :: rest, k, v =>
    if p.1 = k then (k, v) :: rest else p :: storeEvent rest k v

/-- The error-message formatting in `queue_event`: the source appends the
calling frame's function name, file and line (via `inspect`); that frame
information is passed here as the explicit `caller` string. Only string
texts occur for `error` events. -/
def formatError (v : EventValue) (caller : String) : EventValue :=
  match v with
  | .str s => .str (s ++ ": " ++ caller)
  | .num q => .num q

/-- Embedding of `Pac.queue_event` (pac.py lines 242-275).  Returns the
new state together with the list of external actions, in order:

    if event_type in self.last_event:
        if self.last_event[event_type] == event_text:
            return                      -- suppressed, nothing happens
    self.last_event[event_type] = event_text
    if event_type == "error":
        event_text = <formatted with caller frame info>
    if self.callback_queue is None:
        if event_type == "error": sys.exit(1)
        else: return
    try: self.callback_queue.put_nowait((event_type, event_text))
    except queue.Full: pass             -- event silently dropped
    if event_type == "error":
        self.callback_queue.join()      -- wait until consumer drains
        sys.exit(1)
-/
def queue_event (st : EmitterState) (caller : String) (event_type : String)
    (event_text : EventValue) : EmitterState × List QEAction :=
  if lookupEvent st.last_event event_type = some event_text then
    (st, [])
  else
    let st1 : EmitterState :=
      { st with last_event := storeEvent st.last_event event_type event_text }
    let text :=
      if event_type = "error" then formatError event_text caller else event_text
    if st.queueAttached = false then
      if event_type = "error" then (st1, [QEAction.exitProcess 1])
      else (st1, [])
    else
      let putActs : List QEAction :=
        if st.queueFull then [] else [QEAction.put event_type text]
      if event_type = "error" then
        (st1, putActs ++ [QEAction.joinQueue, QEAction.exitProcess 1])
      else
        (st1, putActs)

/-- Predicate picking out the queue-delivery actions. -/
def isPut : QEAction → Bool
  | .put _ _ => true
  | _ => false

/-- Number of events a run of actions delivers to the consumer queue. -/
def countPut (l : List QEAction) : ℕ :=
  (l.filter isPut).length

/-- After storing, looking the key up yields the stored value. -/
theorem lookupEvent_storeEvent (m : List (String × EventValue))
    (k : String) (v : EventValue) :
    lookupEvent (storeEvent m k v) k = some v := by
  induction m with
  | nil => simp [storeEvent, lookupEvent, List.find?]
  | cons p rest ih =>
    by_cases hp : p.1 = k
    · simp [storeEvent, hp, lookupEvent, List.find?]
    · simp only [storeEvent, if_neg hp]
      simpa [lookupEvent, List.find?_cons, hp] using ih

/-- A sync database as observed by `do_refresh`: its name and whether
its forced `db.update(force)` call raises an engine error (pyalpm's
`update` raises `pyalpm.error` on failure). -/
structure SyncDb where
  name : String
  updateRaises : Bool
deriving DecidableEq, Repr

/-- Observable result of `do_refresh`: whether an exception propagated
out of the function (`raised`), the databases whose `update` was invoked
in order, and how many `transaction.release()` calls were made. -/
structure RefreshOutcome where
  raised : Bool
  updatesAttempted : List String
  releases : ℕ
deriving DecidableEq, Repr

/-- The `for db in self.handle.get_syncdbs()` loop of `do_refresh`
(pac.py lines 156-159):

    for db in self.handle.get_syncdbs():
        transaction = self.init_transaction()
        db.update(force)
        transaction.release()

There is no exception handling in the loop body: a raising `db.update`
propagates, aborting the loop before `transaction.release()` runs.
(`init_transaction` is taken to succeed here; its own failure mode
returns `None`, on which `release` would raise as well.) -/
def refreshLoop : List SyncDb → RefreshOutcome
  | [] => ⟨false, [], 0⟩
  | db :: rest =>
    if db.updateRaises then
      ⟨true, [db.name], 0⟩
    else
      let r := refreshLoop rest
      ⟨r.raised, db.name :: r.updatesAttempted, r.releases + 1⟩

/-- Embedding of `Pac.do_refresh` (pac.py lines 149-160): raises
immediately when the handle is absent, otherwise runs the per-database
loop; `raised = false` corresponds to the final `return True`. -/
def do_refresh (handlePresent : Bool) (dbs : List SyncDb) : RefreshOutcome :=
  if handlePresent = false then ⟨true, [], 0⟩
  else refreshLoop dbs

/-- C3 counterexample: when the first database's forced update raises,
`do_refresh` aborts immediately — the exception propagates
(`raised = true`), the remaining database `extra` is never updated, and
the transaction opened for `core` is never released (zero `release`
calls instead of one per database). -/
theorem do_refresh_abort_counterexample :
    do_refresh true [⟨"core", true⟩, ⟨"extra", false⟩]
      = ⟨true, ["core"], 0⟩ := rfl

/-- When no update raises, the refresh loop visits every database and
releases every per-database transaction. -/
theorem refreshLoop_clean (dbs : List SyncDb)
    (h : ∀ db ∈ dbs, db.updateRaises = false) :
    refreshLoop dbs = ⟨false, dbs.map SyncDb.name, dbs.length⟩ := by
  induction dbs with
  | nil => rfl
  | cons db rest ih =>
    have hdb : db.updateRaises = false := h db (List.mem_cons_self db rest)
    have hrest : ∀ d ∈ rest, d.updateRaises = false :=
      fun d hd => h d (List.mem_cons_of_mem db hd)
    simp [refreshLoop, hdb, ih hrest]

/-- A raising update aborts the refresh loop: no later database is
visited and only the earlier transactions were released. -/
theorem refreshLoop_abort (pre post : List SyncDb) (bad : SyncDb)
    (hpre : ∀ db ∈ pre, db.updateRaises = false)
    (hbad : bad.updateRaises = true) :
    refreshLoop (pre ++ bad :: post)
      = ⟨true, pre.map SyncDb.name ++ [bad.name], pre.length⟩ := by
  induction pre with
  | nil => simp [refreshLoop, hbad]
  | cons p rest ih =>
    have hp : p.updateRaises = false := hpre p (List.mem_cons_self p rest)
    have hrest : ∀ d ∈ rest, d.updateRaises = false :=
      fun d hd => hpre d (List.mem_cons_of_mem p hd)
    simp [refreshLoop, hp, ih hrest]

/-- C3 (amended): `do_refresh` has no per-database error tolerance.
When no update raises, every configured sync database is updated and
every per-database transaction is released; but a raising update aborts
the loop at that database — the exception propagates out of
`do_refresh`, the remaining databases are not refreshed, and the
transaction opened for the failing database is not released (only the
databases before it had their transactions released). -/
theorem do_refresh_failure_propagation (dbs pre post : List SyncDb)
    (bad : SyncDb) :
    ((∀ db ∈ dbs, db.updateRaises = false) →
      do_refresh true dbs = ⟨false, dbs.map SyncDb.name, dbs.length⟩)
    ∧ ((∀ db ∈ pre, db.updateRaises = false) → bad.updateRaises = true →
      do_refresh true (pre ++ bad :: post)
        = ⟨true, pre.map SyncDb.name ++ [bad.name], pre.length⟩) :=
  ⟨fun h => refreshLoop_clean dbs h,
   fun hpre hbad => refreshLoop_abort pre post bad hpre hbad⟩

/-- Witness for `do_refresh_failure_propagation`: two databases that both
update cleanly are both refreshed and both transactions released; when
the second database's update raises, only the first transaction is ever
released. -/
theorem do_refresh_failure_propagation_witness :
    do_refresh true [⟨"core", false⟩, ⟨"extra", false⟩]
      = ⟨false, ["core", "extra"], 2⟩
    ∧ do_refresh true [⟨"core", false⟩, ⟨"extra", true⟩]
      = ⟨true, ["core", "extra"], 1⟩ :=
  ⟨(do_refresh_failure_propagation [⟨"core", false⟩, ⟨"extra", false⟩]
      [] [] ⟨"x", false⟩).1 (by decide),
   (do_refresh_failure_propagation [] [⟨"core", false⟩] []
      ⟨"extra", true⟩).2 (by decide) rfl⟩

/-- C8: with a consumer queue attached and not full, `queue_event`
delivers an event to the queue if and only if it is not a duplicate of
the last text stored for its kind in the dedup cache; and two
consecutive `info` events with the same text deliver exactly one queue
entry — the second call is suppressed entirely. -/
theorem queue_event_dedup_iff (st : EmitterState) (caller k : String)
    (v : EventValue) (hq : st.queueAttached = true)
    (hf : st.queueFull = false) :
    ((∃ w, QEAction.put k w ∈ (queue_event st caller k v).2)
      ↔ lookupEvent st.last_event k ≠ some v)
    ∧ (∀ t : String,
        lookupEvent st.last_event "info" ≠ some (.str t) →
        countPut (queue_event st caller "info" (.str t)).2 = 1
        ∧ queue_event (queue_event st caller "info" (.str t)).1 caller
            "info" (.str t)
          = ((queue_event st caller "info" (.str t)).1, [])) := by
  constructor
  · by_cases hdup : lookupEvent st.last_event k = some v
    · simp [queue_event, hdup]
    · by_cases he : k = "error"
      · subst he
        simp [queue_event, hdup, hq, hf]
      · simp [queue_event, hdup, hq, hf, he]
  · intro t hlk
    constructor
    · simp [queue_event, hlk, hq, hf, countPut, isPut]
    · simp [queue_event, hlk, hq, hf, lookupEvent_storeEvent]

/-- Witness for `queue_event_dedup_iff`: from a fresh emitter, sending
`info`/`"x"` twice delivers exactly one queue entry and the second call
changes nothing. -/
theorem queue_event_dedup_iff_witness :
    countPut (queue_event ⟨[], true, false⟩ "pac" "info"
        (EventValue.str "x")).2 = 1
    ∧ queue_event (queue_event ⟨[], true, false⟩ "pac" "info"
          (EventValue.str "x")).1 "pac" "info" (EventValue.str "x")
      = ((queue_event ⟨[], true, false⟩ "pac" "info"
          (EventValue.str "x")).1, []) :=
  (queue_event_dedup_iff ⟨[], true, false⟩ "pac" "info" (EventValue.str "x")
    rfl rfl).2 "x" (by decide)

/-- C7 counterexample: emitting a fatal `error` event does not always
follow the enqueue-drain-terminate protocol.  First concrete input: when
the error text equals the last `error` text in the dedup cache, the call
is suppressed — nothing is enqueued and no `sys.exit` happens, so the
producing process does not terminate.  Second concrete input: when the
queue is full, the process joins and terminates even though the error
event was never enqueued. -/
theorem queue_event_error_counterexample :
    queue_event ⟨[("error", EventValue.str "boom")], true, false⟩ "pac"
        "error" (EventValue.str "boom")
      = (⟨[("error", EventValue.str "boom")], true, false⟩, [])
    ∧ (queue_event ⟨[], true, true⟩ "pac" "error"
        (EventValue.str "boom")).2
      = [QEAction.joinQueue, QEAction.exitProcess 1] := by
  constructor <;> rfl

/-- C7 (amended): with a consumer queue attached, a fatal `error` event
whose text differs from the last `error` text is formatted, enqueued
when the queue has space (silently dropped when full), then the producer
joins the queue (blocking until the consumer drains it) and terminates;
an `error` event whose text repeats the last one is fully suppressed and
does not terminate. -/
theorem queue_event_error_protocol (st : EmitterState) (caller : String)
    (v : EventValue) (hq : st.queueAttached = true) :
    (lookupEvent st.last_event "error" ≠ some v →
      (queue_event st caller "error" v).2
        = (if st.queueFull then []
           else [QEAction.put "error" (formatError v caller)])
          ++ [QEAction.joinQueue, QEAction.exitProcess 1])
    ∧ (lookupEvent st.last_event "error" = some v →
      queue_event st caller "error" v = (st, [])) := by
  constructor
  · intro h
    simp [queue_event, h, hq]
  · intro h
    simp [queue_event, h]

/-- Witness for `queue_event_error_protocol`: on a fresh emitter with a
non-full queue, a fatal error is enqueued (formatted), then the producer
joins the queue and exits. -/
theorem queue_event_error_protocol_witness :
    (queue_event ⟨[], true, false⟩ "pac" "error"
        (EventValue.str "fatal")).2
      = [QEAction.put "error" (formatError (EventValue.str "fatal") "pac"),
         QEAction.joinQueue, QEAction.exitProcess 1] := by
  simpa using (queue_event_error_protocol ⟨[], true, false⟩ "pac"
    (EventValue.str "fatal") rfl).1 (by decide)

/-- The download-progress state fields of `Pac` read and written by
`cb_dl`.  Byte counts are the integers pyalpm passes; the stored
progress fraction is a Python float, modelled over ℝ. -/
structure DlState where
  last_dl_filename : Option String
  last_dl_total_size : ℤ
  last_dl_progress : ℝ
  total_download_size : ℤ
  downloaded_packages : ℤ
  total_packages_to_download : ℤ

/-- An event `cb_dl` hands to `queue_event`: an `info` text or a
`percent` fraction. -/
inductive DlEvent
  | info (text : String)
  | percent (value : ℝ)

/-- `filename[:-len(ext)]` applied only when the name ends in `ext`. -/
def stripExt (filename ext : String) : String :=
  if filename.endsWith ext then filename.dropRight ext.length else filename

/-- The same-file progress computation of `cb_dl` (pac.py lines
371-376):

    if self.last_dl_total_size > 0:
        progress = tx / self.last_dl_total_size
    else:
        # If total is unknown, use log(kBytes)^2/2
        progress = (math.log(1 + tx / 1024) ** 2 / 2) / 100

Note the guard reads the stored per-file `last_dl_total_size`, not the
aggregate `total_download_size`. -/
noncomputable def dl_progress (s : DlState) (tx : ℤ) : ℝ :=
  if 0 < s.last_dl_total_size then (tx : ℝ) / (s.last_dl_total_size : ℝ)
  else Real.log (1 + (tx : ℝ) / 1024) ^ 2 / 2 / 100

/-- Embedding of `Pac.cb_dl` (pac.py lines 344-382): returns the new
download state and the `(kind, value)` events handed to `queue_event`,
in order.  A new file (filename changed, or stored per-file total size
differs from `total`) resets the stored progress, records the new
filename and total, emits an `info` line (with display wording that
depends on whether the aggregate `total_download_size` is zero) and a
zero `percent`; on a same-file continuation, the computed fraction is
emitted and stored only when it strictly exceeds the stored one. -/
noncomputable def cb_dl (s : DlState) (filename : String) (tx total : ℤ) :
    DlState × List DlEvent :=
  if some filename ≠ s.last_dl_filename ∨ s.last_dl_total_size ≠ total then
    let s1 : DlState :=
      { s with last_dl_filename := some filename
               last_dl_total_size := total
               last_dl_progress := 0 }
    if s.total_download_size = 0 then
      (s1, [DlEvent.info ("Updating " ++ stripExt filename ".db"
              ++ " database"),
            DlEvent.percent 0])
    else
      ({ s1 with downloaded_packages := s1.downloaded_packages + 1 },
       [DlEvent.info ("Downloading " ++ stripExt filename ".pkg.tar.xz"
          ++ "..."),
        DlEvent.percent 0])
  else
    let progress := dl_progress s tx
    if progress > s.last_dl_progress then
      ({ s with last_dl_progress := progress }, [DlEvent.percent progress])
    else
      (s, [])

/-- On a same-file continuation call, `cb_dl` reduces to the
monotonicity check on the computed fraction. -/
theorem cb_dl_samefile (s : DlState) (filename : String) (tx total : ℤ)
    (hf : s.last_dl_filename = some filename)
    (ht : s.last_dl_total_size = total) :
    cb_dl s filename tx total
      = if s.last_dl_progress < dl_progress s tx
        then ({ s with last_dl_progress := dl_progress s tx },
              [DlEvent.percent (dl_progress s tx)])
        else (s, []) := by
  unfold cb_dl
  rw [if_neg]
  push_neg
  exact ⟨hf.symm, ht⟩

/-- C1: on a same-file continuation (same filename, same per-file total
as stored), the computed fraction is emitted as a `percent` event and
stored as the new last progress if and only if it strictly exceeds the
stored fraction; a call whose fraction is less than or equal to the
stored one emits nothing and leaves the whole state unchanged. -/
theorem cb_dl_samefile_emit_iff (s : DlState) (filename : String)
    (tx total : ℤ) (hf : s.last_dl_filename = some filename)
    (ht : s.last_dl_total_size = total) :
    ((cb_dl s filename tx total).2 = [DlEvent.percent (dl_progress s tx)]
        ∧ (cb_dl s filename tx total).1.last_dl_progress = dl_progress s tx
      ↔ s.last_dl_progress < dl_progress s tx)
    ∧ (s.last_dl_progress < dl_progress s tx →
        cb_dl s filename tx total
          = ({ s with last_dl_progress := dl_progress s tx },
             [DlEvent.percent (dl_progress s tx)]))
    ∧ (dl_progress s tx ≤ s.last_dl_progress →
        cb_dl s filename tx total = (s, [])) := by
  rw [cb_dl_samefile s filename tx total hf ht]
  by_cases h : s.last_dl_progress < dl_progress s tx
  · rw [if_pos h]
    exact ⟨⟨fun _ => h, fun _ => ⟨rfl, rfl⟩⟩,
      fun _ => rfl, fun hle => absurd h (not_lt.mpr hle)⟩
  · rw [if_neg h]
    refine ⟨⟨fun hc => absurd hc.1 (by simp), fun hlt => absurd hlt h⟩,
      fun hlt => absurd hlt h, fun _ => rfl⟩

/-- Witness for `cb_dl_samefile_emit_iff`: the claim example — with file
total 100, a call at 50 transferred bytes emits `percent 0.5` and stores
it; the following call at 40 bytes is fully suppressed. -/
theorem cb_dl_samefile_emit_iff_witness :
    cb_dl ⟨some "f", 100, 0, 5, 0, 0⟩ "f" 50 100
      = (⟨some "f", 100, (50 : ℝ) / 100, 5, 0, 0⟩,
         [DlEvent.percent ((50 : ℝ) / 100)])
    ∧ cb_dl ⟨some "f", 100, 1 / 2, 5, 0, 0⟩ "f" 40 100
      = (⟨some "f", 100, 1 / 2, 5, 0, 0⟩, []) := by
  have hp50 : dl_progress ⟨some "f", 100, 0, 5, 0, 0⟩ 50 = (50 : ℝ) / 100 := by
    unfold dl_progress
    norm_num
  have hp40 : dl_progress ⟨some "f", 100, 1 / 2, 5, 0, 0⟩ 40
      = (40 : ℝ) / 100 := by
    unfold dl_progress
    norm_num
  constructor
  · have h := (cb_dl_samefile_emit_iff ⟨some "f", 100, 0, 5, 0, 0⟩ "f"
      50 100 rfl rfl).2.1 (by rw [hp50]; norm_num)
    rw [h, hp50]
  · exact (cb_dl_samefile_emit_iff ⟨some "f", 100, 1 / 2, 5, 0, 0⟩ "f"
      40 100 rfl rfl).2.2 (by rw [hp40]; norm_num)

/-- C6 counterexample: the logarithmic fallback is not keyed on the
aggregate `total_download_size`.  In a state whose aggregate total is 0
but whose stored per-file total is 100, a same-file call at 50 bytes
emits the plain ratio 50/100, which differs from the claimed fallback
value `(ln(1 + 50/1024))^2 / 200`. -/
theorem dl_progress_aggregate_zero_counterexample :
    (⟨some "f", 100, 0, 0, 0, 0⟩ : DlState).total_download_size = 0
    ∧ (cb_dl ⟨some "f", 100, 0, 0, 0, 0⟩ "f" 50 100).2
        = [DlEvent.percent ((50 : ℝ) / 100)]
    ∧ (50 : ℝ) / 100 ≠ Real.log (1 + (50 : ℝ) / 1024) ^ 2 / 200 := by
  have hp : dl_progress ⟨some "f", 100, 0, 0, 0, 0⟩ 50 = (50 : ℝ) / 100 := by
    unfold dl_progress
    norm_num
  refine ⟨rfl, ?_, ?_⟩
  · rw [cb_dl_samefile ⟨some "f", 100, 0, 0, 0, 0⟩ "f" 50 100 rfl rfl, hp,
      if_pos (by norm_num : (0 : ℝ) < 50 / 100)]
  · intro heq
    have hpos : (0 : ℝ) < 1 + 50 / 1024 := by norm_num
    have hub : Real.log (1 + (50 : ℝ) / 1024) ≤ (50 : ℝ) / 1024 := by
      have := Real.log_le_sub_one_of_pos hpos
      linarith
    have hnn : (0 : ℝ) ≤ Real.log (1 + (50 : ℝ) / 1024) :=
      Real.log_nonneg (by norm_num)
    have hsq : Real.log (1 + (50 : ℝ) / 1024) ^ 2 ≤ ((50 : ℝ) / 1024) ^ 2 := by
      nlinarith [hub, hnn]
    have hval : ((50 : ℝ) / 1024) ^ 2 = 2500 / 1048576 := by norm_num
    rw [hval] at hsq
    linarith [heq, hsq]

/-- C6 (amended): the fallback curve is keyed on the stored per-file
total size: whenever `last_dl_total_size` is not positive (0 for an
unknown stream size), the same-file fraction equals
`(ln(1 + tx/1024))^2 / 200` for every byte count `tx`; at `tx = 1024`
it equals `(ln 2)^2 / 200`, which lies between 0.0023 and 0.0025
(≈ 0.0024). -/
theorem dl_progress_fallback_curve (s : DlState) (tx : ℤ)
    (h : ¬ 0 < s.last_dl_total_size) :
    dl_progress s tx = Real.log (1 + (tx : ℝ) / 1024) ^ 2 / 200
    ∧ dl_progress s 1024 = Real.log 2 ^ 2 / 200
    ∧ 0.0023 < dl_progress s 1024
    ∧ dl_progress s 1024 < 0.0025 := by
  have key : ∀ t : ℤ,
      dl_progress s t = Real.log (1 + (t : ℝ) / 1024) ^ 2 / 200 := by
    intro t
    unfold dl_progress
    rw [if_neg h]
    ring
  have h1024 : dl_progress s 1024 = Real.log 2 ^ 2 / 200 := by
    rw [key 1024]
    norm_num
  have hgt := Real.log_two_gt_d9
  have hlt := Real.log_two_lt_d9
  have hlsq : (0.6931471803 : ℝ) ^ 2 < Real.log 2 ^ 2 :=
    pow_lt_pow_left₀ hgt (by norm_num) (by norm_num)
  have husq : Real.log 2 ^ 2 < (0.6931471808 : ℝ) ^ 2 :=
    pow_lt_pow_left₀ hlt (le_of_lt (Real.log_pos (by norm_num))) (by norm_num)
  refine ⟨key tx, h1024, ?_, ?_⟩
  · rw [h1024]
    nlinarith [hlsq]
  · rw [h1024]
    nlinarith [husq]

/-- Witness for `dl_progress_fallback_curve`: a fresh state (per-file
total 0): at 1024 bytes the fraction is `(ln 2)^2 / 200`, between 0.0023
and 0.0025. -/
theorem dl_progress_fallback_curve_witness :
    dl_progress ⟨none, 0, 0, 0, 0, 0⟩ 1024 = Real.log 2 ^ 2 / 200
    ∧ 0.0023 < dl_progress ⟨none, 0, 0, 0, 0, 0⟩ 1024
    ∧ dl_progress ⟨none, 0, 0, 0, 0, 0⟩ 1024 < 0.0025 :=
  (dl_progress_fallback_curve ⟨none, 0, 0, 0, 0, 0⟩ 1024 (by decide)).2

